import Mathlib

/-!
Verification development for the FakeMCServer repository: a shallow
embedding of the rate limiter (`internal/limiter/rate_limiter.go`), the
VarInt codec and protocol handler (`internal/protocol`), the honeypot
event sink (`internal/logger`), and the upstream status mirror
(`internal/sync/upstream.go`), together with theorems checking the
specification's claims against these definitions.

Modelling conventions:
* Wall-clock instants and durations are rationals (seconds); delay
  quantities computed by the limiter are rationals (nanoseconds), matching
  the Go code's use of `time.Duration` nanosecond counts and
  `Duration.Seconds()`.  Go `float64` arithmetic is modelled exactly over
  `ℚ`; every concrete counterexample below uses small decimal values for
  which the float computation is exact.
* The `golang.org/x/time/rate` token bucket is modelled at a single
  instant: `Allow` consumes one token when at least one is available and
  fails otherwise (the time-based refill happens between calls, not
  inside one, so it is irrelevant to per-call claims).
* Concurrent maps (`sync.Map`) are modelled as association lists keyed by
  the source-address string.
-/

namespace FakeMC

/-! ## Rate limiter (`internal/limiter/rate_limiter.go`) -/

/-- Configuration fields consumed by `RateLimiter`
(`internal/config/config.go`: `RateLimitConfig` and `DelayConfig`).
Durations are in nanoseconds, multipliers are the raw `float64` values. -/
structure RLConfig where
  ipLimit : ℚ
  globalLimit : ℚ
  baseDelay : ℚ
  maxIPPenalty : ℚ
  maxGlobalPenalty : ℚ
  ipFrequencyFactor : ℚ
  globalLoadFactor : ℚ
  ipRateMultiplier : ℚ
  globalRateMultiplier : ℚ
  deriving Repr, DecidableEq

/-- The defaulted configuration produced by `config.setDefaults`:
ip_limit 5/s, global_limit 100/s, base_delay 100ms, max_ip_penalty 5s,
max_global_penalty 2s, ip_frequency_factor 1.5, global_load_factor 1.2,
ip_rate_multiplier 2.0, global_rate_multiplier 1.5. -/
def defaultRLConfig : RLConfig where
  ipLimit := 5
  globalLimit := 100
  baseDelay := 100000000
  maxIPPenalty := 5000000000
  maxGlobalPenalty := 2000000000
  ipFrequencyFactor := 3/2
  globalLoadFactor := 6/5
  ipRateMultiplier := 2
  globalRateMultiplier := 3/2

/-- Per-IP limiter record (`IPLimiterInfo`): its token bucket's current
token count, the admitted-request counter, and the first/last-seen
timestamps (seconds). -/
structure IPLimiterInfo where
  tokens : ℚ
  requestCount : ℕ
  firstRequest : ℚ
  lastRequest : ℚ
  deriving Repr, DecidableEq

/-- `RateLimiter` state: the global bucket's current token count, the
per-IP table, the global counters and the start time. -/
structure RLState where
  globalTokens : ℚ
  ipLimiters : List (String × IPLimiterInfo)
  globalRequests : ℕ
  totalRequests : ℕ
  startTime : ℚ
  deriving Repr, DecidableEq

/-- Look an address up in the per-IP table. -/
def lookupIP (s : RLState) (ip : String) : Option IPLimiterInfo :=
  (s.ipLimiters.find? (fun p => p.fst = ip)).map Prod.snd

/-- Replace the record stored for `ip` (the record itself is mutated in Go;
here the table entry is rewritten). -/
def storeIP (s : RLState) (ip : String) (info : IPLimiterInfo) : RLState :=
  { s with ipLimiters :=
      s.ipLimiters.map fun p => if p.fst = ip then (ip, info) else p }

/-- `getOrCreateIPLimiter`: return the existing record, or insert a fresh
one whose bucket is full (burst = `ip_limit`) and whose first/last-seen
timestamps are `now`. -/
def getOrCreateIPLimiter (cfg : RLConfig) (s : RLState) (ip : String)
    (now : ℚ) : IPLimiterInfo × RLState :=
  match lookupIP s ip with
  | some info => (info, s)
  | none =>
      let info : IPLimiterInfo :=
        { tokens := cfg.ipLimit
          requestCount := 0
          firstRequest := now
          lastRequest := now }
      (info, { s with ipLimiters := s.ipLimiters ++ [(ip, info)] })

/-- `updateStats`: bump the per-IP request counter, move last-seen to
`now`, and bump the global counters. -/
def updateStats (s : RLState) (ip : String) (info : IPLimiterInfo)
    (now : ℚ) : RLState :=
  let s := storeIP s ip
    { info with requestCount := info.requestCount + 1, lastRequest := now }
  { s with globalRequests := s.globalRequests + 1
           totalRequests := s.totalRequests + 1 }

/-- `RateLimiter.Allow`: try the global bucket first; on failure return
immediately (the per-IP table is untouched).  Otherwise look up / create
the per-IP record and try its bucket; on failure return without refunding
the global token.  On success update the statistics. -/
def Allow (cfg : RLConfig) (s : RLState) (ip : String) (now : ℚ) :
    Bool × RLState :=
  if s.globalTokens < 1 then (false, s)
  else
    let s1 := { s with globalTokens := s.globalTokens - 1 }
    let (info, s2) := getOrCreateIPLimiter cfg s1 ip now
    if info.tokens < 1 then (false, s2)
    else
      let info' := { info with tokens := info.tokens - 1 }
      let s3 := storeIP s2 ip info'
      (true, updateStats s3 ip info' now)

/-- `calculateIPFrequency`: the per-IP frequency factor,
`max(1, (count / seconds_since_first_seen) / ip_limit * ip_frequency_factor)`,
with the `duration == 0` guard returning `1`. -/
def calculateIPFrequency (cfg : RLConfig) (info : IPLimiterInfo)
    (now : ℚ) : ℚ :=
  let duration := now - info.firstRequest
  if duration = 0 then 1
  else
    let requestsPerSecond := (info.requestCount : ℚ) / duration
    let frequencyFactor := requestsPerSecond / cfg.ipLimit
    max 1 (frequencyFactor * cfg.ipFrequencyFactor)

/-- `calculateGlobalLoad`: the global load factor, analogous to
`calculateIPFrequency` but over the limiter's start time, total request
counter and global limit. -/
def calculateGlobalLoad (cfg : RLConfig) (s : RLState) (now : ℚ) : ℚ :=
  let duration := now - s.startTime
  if duration = 0 then 1
  else
    let requestsPerSecond := (s.totalRequests : ℚ) / duration
    let loadFactor := requestsPerSecond / cfg.globalLimit
    max 1 (loadFactor * cfg.globalLoadFactor)

/-- `RateLimiter.CalculateDelay` (nanoseconds): base delay plus the capped
IP penalty plus the capped global penalty.  Calling it on an unseen
address inserts a fresh per-IP record first, exactly as
`getOrCreateIPLimiter` does in the source. -/
def CalculateDelay (cfg : RLConfig) (s : RLState) (ip : String)
    (now : ℚ) : ℚ × RLState :=
  let (info, s') := getOrCreateIPLimiter cfg s ip now
  let ipFrequency := calculateIPFrequency cfg info now
  let globalLoad := calculateGlobalLoad cfg s' now
  let baseDelay := cfg.baseDelay
  let ipPenalty :=
    min cfg.maxIPPenalty (ipFrequency * cfg.ipRateMultiplier * baseDelay)
  let globalPenalty :=
    min cfg.maxGlobalPenalty
      (globalLoad * cfg.globalRateMultiplier * baseDelay)
  (baseDelay + ipPenalty + globalPenalty, s')

/-- `RateLimiter.GetIPFrequency`: 0 for an unseen address; otherwise the
raw requests-per-second since first-seen, with a `duration == 0` guard
returning 0. -/
def GetIPFrequency (s : RLState) (ip : String) (now : ℚ) : ℚ :=
  match lookupIP s ip with
  | none => 0
  | some info =>
      let duration := now - info.firstRequest
      if duration = 0 then 0
      else (info.requestCount : ℚ) / duration

/-- A fresh limiter state as built by `NewRateLimiter`: full global bucket
(burst = `global_limit`), empty per-IP table, zero counters. -/
def initialRLState (cfg : RLConfig) (start : ℚ) : RLState where
  globalTokens := cfg.globalLimit
  ipLimiters := []
  globalRequests := 0
  totalRequests := 0
  startTime := start

/-! ## VarInt codec (`FastHandler.encodeVarInt`)

`encodeVarInt` is a do-while loop over a Go `int`:
`temp := byte(value & 0x7F); value >>= 7; if value != 0, temp |= 0x80;
append temp; stop when value == 0`.  For a non-negative value,
`& 0x7F` is `% 128` and the arithmetic shift `>> 7` is `/ 128`, so the
loop is structural recursion on `value / 128`; `encodeVarInt` below is
that non-negative restriction.  `encodeVarIntFuel` is the loop on the
full signed domain (arithmetic shift = flooring division), with explicit
fuel so that its non-termination on negative inputs is expressible. -/

/-- `FastHandler.encodeVarInt` restricted to non-negative values.  The
first iteration appends `value % 128` and stops when `value / 128 = 0`
(i.e. `value < 128`); otherwise it appends `value % 128` with the
continuation bit `0x80` set and continues on `value / 128`. -/
def encodeVarInt (value : ℕ) : List ℕ :=
  if _h : value < 128 then [value]
  else (value % 128 + 128) :: encodeVarInt (value / 128)
decreasing_by
  exact Nat.div_lt_self (by omega) (by omega)

/-- One fuelled unfolding of the `encodeVarInt` loop over the signed Go
`int` domain: `value & 0x7F` on a two's-complement integer is the
non-negative remainder `value mod 128`, and the arithmetic right shift
`value >> 7` is the flooring division `⌊value / 128⌋`.  `none` means the
loop did not finish within `fuel` iterations. -/
def encodeVarIntFuel : ℕ → ℤ → Option (List ℕ)
  | 0, _ => none
  | fuel + 1, value =>
      let temp := (value % 128).toNat
      let value' := value / 128
      if value' = 0 then some [temp]
      else
        match encodeVarIntFuel fuel value' with
        | some rest => some ((temp + 128) :: rest)
        | none => none

/-- Modelled from the spec: the VarInt decoder (the repo decodes VarInts
through the external `go-mc` library, which is not part of this source
tree).  Per the spec: "7 bits per byte, little-endian groups, high bit =
continuation, max 5 bytes"; decoding fails on a truncated stream or on a
sixth continuation byte.  `shift` counts the bits already consumed. -/
def decodeVarIntAux : List ℕ → ℕ → ℕ → Option ℕ
  | [], _, _ => none
  | b :: rest, shift, acc =>
      if 35 ≤ shift then none
      else if b < 128 then some (acc + b * 2 ^ shift)
      else decodeVarIntAux rest (shift + 7) (acc + (b - 128) * 2 ^ shift)

/-- Modelled from the spec: decode a complete VarInt byte string. -/
def decodeVarInt (bs : List ℕ) : Option ℕ :=
  decodeVarIntAux bs 0 0

/-! ## Wire-format readers used by `parseHandshakeFast`

`parseHandshakeFast` drives the `go-mc` field readers (`packet.VarInt`,
`packet.String`, `packet.UnsignedShort`), which live in an external
library.  They are modelled from the spec's codec section: VarInt is
7 bits per byte, little-endian groups, continuation in the high bit, at
most 5 bytes, with the accumulated value interpreted as a signed 32-bit
integer; String is a VarInt byte length followed by that many bytes;
UnsignedShort is two big-endian bytes.  Each reader consumes a prefix of
the byte stream and fails on truncation. -/

/-- Interpret an accumulated natural number as a Go `int32`
(two's complement wraparound). -/
def toInt32 (v : ℕ) : ℤ :=
  let w : ℕ := v % 2 ^ 32
  if w < 2 ^ 31 then (w : ℤ) else (w : ℤ) - 2 ^ 32

/-- Modelled from the spec: the VarInt reader over a byte stream.
Consumes continuation bytes (high bit set) up to the 5-byte limit and
returns the signed 32-bit value together with the remaining stream. -/
def readVarIntAux : List ℕ → ℕ → ℕ → Option (ℕ × List ℕ)
  | [], _, _ => none
  | b :: rest, count, acc =>
      if 5 ≤ count then none
      else
        let acc' := acc + b % 128 * 2 ^ (7 * count)
        if b < 128 then some (acc', rest)
        else readVarIntAux rest (count + 1) acc'

/-- Modelled from the spec: read one VarInt as a signed 32-bit value. -/
def readVarInt (bs : List ℕ) : Option (ℤ × List ℕ) :=
  (readVarIntAux bs 0 0).map fun p => (toInt32 p.fst, p.snd)

/-- Modelled from the spec: read a length-prefixed string (a VarInt byte
count followed by that many bytes); fails on a negative length or a
truncated stream.  The string's byte content is kept as the byte list. -/
def readString (bs : List ℕ) : Option (List ℕ × List ℕ) :=
  match readVarInt bs with
  | none => none
  | some (n, rest) =>
      if n < 0 then none
      else
        let len := n.toNat
        if rest.length < len then none
        else some (rest.take len, rest.drop len)

/-- Modelled from the spec: read a two-byte big-endian unsigned short. -/
def readUnsignedShort (bs : List ℕ) : Option (ℕ × List ℕ) :=
  match bs with
  | hi :: lo :: rest => some (hi % 256 * 256 + lo % 256, rest)
  | _ => none

/-! ## Protocol handler (`FastHandler`, wired in `cmd/server/main.go`,
and `GoMCHandler`) -/

/-- `HandshakeInfo` (`internal/protocol/interfaces.go`), with the
advertised server address kept as its byte content. -/
structure HandshakeInfo where
  protocolVersion : ℤ
  serverAddress : List ℕ
  serverPort : ℕ
  nextState : ℤ
  deriving Repr, DecidableEq

/-- `MaxPacketSize` and `MaxStringLen` from
`internal/protocol/interfaces.go`. -/
def MaxPacketSize : ℕ := 512

def MaxStringLen : ℕ := 128

/-- `FastHandler.parseHandshakeFast`: skip the frame length and packet id
VarInts, then decode protocol version (rejected outside `[47, 1000]`),
server address (rejected beyond `MaxStringLen` bytes), server port, and
intent (rejected outside `{1, 2}`).  `none` is any of the `error`
returns. -/
def parseHandshakeFast (data : List ℕ) : Option HandshakeInfo :=
  match readVarInt data with
  | none => none
  | some (_packetLen, r1) =>
    match readVarInt r1 with
    | none => none
    | some (_packetID, r2) =>
      match readVarInt r2 with
      | none => none
      | some (protocol, r3) =>
        if protocol < 47 ∨ 1000 < protocol then none
        else
          match readString r3 with
          | none => none
          | some (address, r4) =>
            if MaxStringLen < address.length then none
            else
              match readUnsignedShort r4 with
              | none => none
              | some (port, r5) =>
                match readVarInt r5 with
                | none => none
                | some (intention, _r6) =>
                  if intention ≠ 1 ∧ intention ≠ 2 then none
                  else some
                    { protocolVersion := protocol
                      serverAddress := address
                      serverPort := port
                      nextState := intention }

/-- Honeypot events the handlers emit (`HoneypotLogger.LogHandshake`,
`LogLoginAttempt`, `LogProtocolViolation`). -/
inductive HPEvent where
  | handshake (clientIP : String) (protocolVersion : ℤ)
      (serverAddress : List ℕ) (serverPort : ℕ) (nextState : ℤ)
  | loginAttempt (clientIP : String) (username : String) (delayMs : ℤ)
  | protocolViolation (clientIP : String) (errorMessage : String)
  deriving Repr, DecidableEq

/-- Socket writes issued by the handler.  `status` and `loginDisconnect`
carry the framed packet's string payload; `pong` carries the raw response
bytes built by `handlePingRequestFast`. -/
inductive HPWrite where
  | status (payload : String)
  | pong (bytes : List ℕ)
  | loginDisconnect (payload : String)
  deriving Repr, DecidableEq

/-- Result of one handler call: the socket writes it issued, the honeypot
events it recorded (both in order), and whether it returned without
error. -/
structure HandlerOut where
  writes : List HPWrite
  events : List HPEvent
  ok : Bool
  deriving Repr, DecidableEq

/-- The connection facts the handler observes: whether
`SetReadDeadline` succeeds (`isConnectionValid`) and whether `Write`
succeeds. -/
structure ConnModel where
  remoteIP : String
  valid : Bool
  writeOk : Bool
  deriving Repr, DecidableEq

/-- Prefix more events onto a handler result. -/
def HandlerOut.withEvents (evs : List HPEvent) (out : HandlerOut) :
    HandlerOut :=
  { out with events := evs ++ out.events }

/-- The chat component `{"text": <msg>}` that `FastHandler.handleLoginFast`
builds with `fmt.Sprintf` and that `go-mc`'s `chat.Message` marshals to
(identical for messages with no characters needing JSON escapes). -/
def textComponent (msg : String) : String :=
  "\x7b\"text\":\"" ++ msg ++ "\"\x7d"

/-- `FastHandler.rejectSilently`: record one `protocol_violation` event
when the honeypot logger is enabled, write nothing, sleep, and return the
rejection error. -/
def rejectSilently (conn : ConnModel) (enabled : Bool) (reason : String) :
    HandlerOut :=
  { writes := []
    events := if enabled then [.protocolViolation conn.remoteIP reason] else []
    ok := false }

/-- `FastHandler.quickPreCheck` (part_004): error when more than
`MaxPacketSize` bytes were read or fewer than 1. -/
def quickPreCheck (data : List ℕ) : Option String :=
  if MaxPacketSize < data.length then
    some ("packet too large: " ++ toString data.length)
  else if data.length < 1 then
    some ("packet too small: " ++ toString data.length)
  else none

/-- `FastHandler.handleStatusRequestFast` (part_004): bail out without
writing when the connection is no longer valid, otherwise frame and write
one status response carrying the current status JSON. -/
def handleStatusRequestFast (conn : ConnModel) (statusJSON : String) :
    HandlerOut :=
  if !conn.valid then { writes := [], events := [], ok := false }
  else if !conn.valid then { writes := [], events := [], ok := false }
  else { writes := [.status statusJSON], events := [], ok := conn.writeOk }

/-- `FastHandler.handleLoginFast` (part_004): sleep the second
`CalculateDelay` (its millisecond value is `loginDelayMs` here), write one
login-disconnect packet with the `{"text": kick_message}` component, and
only after a successful write record one `login_attempt` event — always
with an empty username, since this handler never reads a LoginStart
packet. -/
def handleLoginFast (conn : ConnModel) (enabled : Bool) (kick : String)
    (loginDelayMs : ℤ) : HandlerOut :=
  if conn.writeOk then
    { writes := [.loginDisconnect (textComponent kick)]
      events :=
        if enabled then [.loginAttempt conn.remoteIP "" loginDelayMs] else []
      ok := true }
  else
    { writes := [.loginDisconnect (textComponent kick)]
      events := []
      ok := false }

/-- `FastHandler.handlePingRequestFast` (part_004): echo the 8 timestamp
bytes at offsets 2..9 when at least 10 bytes were read, else the fixed
`0,1,...,7` pattern; the response is the VarInt-encoded length 9, the
packet id `0x01`, and the timestamp. -/
def handlePingRequestFast (conn : ConnModel) (data : List ℕ) : HandlerOut :=
  if !conn.valid then { writes := [], events := [], ok := false }
  else
    let timestamp :=
      if 10 ≤ data.length then (data.drop 2).take 8
      else [0, 1, 2, 3, 4, 5, 6, 7]
    let response := encodeVarInt 9 ++ [1] ++ timestamp
    if !conn.valid then { writes := [], events := [], ok := false }
    else { writes := [.pong response], events := [], ok := conn.writeOk }

/-- `FastHandler.processPacketFast` (part_004, the handler wired in
`cmd/server/main.go`): pre-check the size of the bytes actually read; a
1-byte read gets a status response; a second byte `0x00` tries the
handshake parse (emitting a `handshake` event on success and entering the
login arm when the intent is 2) and otherwise falls through to a status
response; a second byte `0x01` is a ping; anything else also falls
through to a status response.  `loginDelayMs` is the second
`CalculateDelay` value paid inside the login arm. -/
def processPacketFast (conn : ConnModel) (enabled : Bool)
    (statusJSON kick : String) (loginDelayMs : ℤ) (data : List ℕ) :
    HandlerOut :=
  match quickPreCheck data with
  | some reason => rejectSilently conn enabled reason
  | none =>
    if data.length = 1 then handleStatusRequestFast conn statusJSON
    else if data.getD 1 0 = 0 then
      if 7 ≤ data.length then
        match parseHandshakeFast data with
        | some hs =>
            let evs :=
              if enabled then
                [HPEvent.handshake conn.remoteIP hs.protocolVersion
                  hs.serverAddress hs.serverPort hs.nextState]
              else []
            if hs.nextState = 2 then
              HandlerOut.withEvents evs
                (handleLoginFast conn enabled kick loginDelayMs)
            else
              HandlerOut.withEvents evs
                (handleStatusRequestFast conn statusJSON)
        | none => handleStatusRequestFast conn statusJSON
      else handleStatusRequestFast conn statusJSON
    else if data.getD 1 0 = 1 then handlePingRequestFast conn data
    else handleStatusRequestFast conn statusJSON

/-- The outcomes `GoMCHandler.handleLogin` can observe when reading the
LoginStart packet through `go-mc`: a read error, a packet whose id is not
`0x00`, a packet whose fields fail to scan, or a parsed username. -/
inductive LoginReadResult where
  | readErr
  | wrongId (id : ℕ)
  | scanErr
  | ok (username : String)
  deriving Repr, DecidableEq

/-- `GoMCHandler.handleLogin` (part_002): sleep the second delay, read the
LoginStart packet; any read, id, or scan failure returns the error at
once — no event is recorded and no disconnect is written.  On a parsed
username, record one `login_attempt` event (when the honeypot logger is
enabled) and then write one login-disconnect packet. -/
def handleLoginGoMC (conn : ConnModel) (enabled : Bool) (kick : String)
    (loginDelayMs : ℤ) (r : LoginReadResult) : HandlerOut :=
  match r with
  | .readErr => { writes := [], events := [], ok := false }
  | .wrongId _ => { writes := [], events := [], ok := false }
  | .scanErr => { writes := [], events := [], ok := false }
  | .ok username =>
      { writes := [.loginDisconnect (textComponent kick)]
        events :=
          if enabled then
            [.loginAttempt conn.remoteIP username loginDelayMs]
          else []
        ok := conn.writeOk }

/-! ## Honeypot event sink (`internal/logger`, part_001) -/

/-- `HoneypotEvent`.  The timestamp is carried already formatted
(`time.RFC3339`); `ipFrequency` keeps the `float64` as a rational. -/
structure HoneypotEvent where
  timestamp : String
  clientIP : String
  eventType : String
  protocolVersion : ℤ
  serverAddress : String
  serverPort : ℕ
  nextState : ℤ
  username : String
  delayAppliedMs : ℤ
  ipFrequency : ℚ
  errorMessage : String
  userAgent : String
  geoLocation : String
  deriving Repr, DecidableEq

/-- ASCII lower-casing of one character, as Go's `strings.ToLower`
behaves on the ASCII format strings the configuration holds. -/
def lowerChar (c : Char) : Char :=
  if 65 ≤ c.toNat ∧ c.toNat ≤ 90 then Char.ofNat (c.toNat + 32) else c

/-- ASCII lower-casing of a string (`strings.ToLower`). -/
def lowerStr (s : String) : String :=
  String.mk (s.data.map lowerChar)

/-- The honeypot logging configuration fields the sink reads. -/
structure HLConfig where
  enabled : Bool
  format : String
  deriving Repr, DecidableEq

/-- Sink state: the CSV records (header row included) and the JSON lines
handed to the rotating writer so far, in order. -/
structure HLState where
  enabled : Bool
  format : String
  csvRows : List (List String)
  jsonLines : List HoneypotEvent
  deriving Repr, DecidableEq

/-- The fixed 13-column header row written by `writeCSVHeader`. -/
def csvHeader : List String :=
  ["timestamp", "client_ip", "event_type",
   "protocol_version", "server_address", "server_port", "next_state",
   "username", "delay_applied_ms", "ip_frequency",
   "error_message", "user_agent", "geo_location"]

/-- Render the `%.2f` cell for the IP frequency: two decimal places.
This abstracts Go's `fmt` float formatting (the exact float rounding is
immaterial here); integral `%d` cells are rendered exactly. -/
def formatF2 (q : ℚ) : String :=
  let cents : ℤ := ⌊q * 100⌋
  toString (cents / 100) ++ "." ++
    (if cents.natAbs % 100 < 10 then "0" else "") ++
    toString (cents.natAbs % 100)

/-- `HoneypotLogger.writeCSV`: the 13 cells of one event row, in the
header's column order. -/
def writeCSV (e : HoneypotEvent) : List String :=
  [e.timestamp, e.clientIP, e.eventType,
   toString e.protocolVersion, e.serverAddress, toString e.serverPort,
   toString e.nextState, e.username, toString e.delayAppliedMs,
   formatF2 e.ipFrequency, e.errorMessage, e.userAgent, e.geoLocation]

/-- `NewHoneypotLogger`: a disabled sink records nothing; an enabled sink
in CSV mode (format compared case-insensitively) writes the header row on
open. -/
def newHoneypotLogger (cfg : HLConfig) : HLState :=
  if !cfg.enabled then
    { enabled := false, format := cfg.format, csvRows := [], jsonLines := [] }
  else if lowerStr cfg.format = "csv" then
    { enabled := true, format := cfg.format, csvRows := [csvHeader]
      jsonLines := [] }
  else
    { enabled := true, format := cfg.format, csvRows := [], jsonLines := [] }

/-- `HoneypotLogger.LogEvent`: no-op when disabled; in CSV mode append one
13-cell record; otherwise append one JSON line. -/
def LogEvent (st : HLState) (e : HoneypotEvent) : HLState :=
  if !st.enabled then st
  else if lowerStr st.format = "csv" then
    { st with csvRows := st.csvRows ++ [writeCSV e] }
  else
    { st with jsonLines := st.jsonLines ++ [e] }

/-! ## Upstream status mirror (`internal/sync/upstream.go`)

The status payload is JSON; `J` is a JSON value whose objects are
key-ordered field lists (Go map insert/overwrite is modelled by
`setJ`).  A raw payload (`Raw`) pairs the bytes with the result that
`sonic.Unmarshal` (an external library) gives on them; `Marshal` is
`sonic.Marshal`, serializing through `serializeJ`. -/

/-- A JSON value.  Numbers are restricted to the integers, which covers
every field the syncer reads or writes. -/
inductive J where
  | null
  | jbool (b : Bool)
  | jnum (n : ℤ)
  | jstr (s : String)
  | jarr (xs : List J)
  | jobj (fields : List (String × J))

/-- Look a key up in a JSON object's fields. -/
def getJ (fields : List (String × J)) (k : String) : Option J :=
  (fields.find? (fun p => p.fst = k)).map Prod.snd

/-- Go map assignment `m[k] = v` on a JSON object: overwrite the existing
entry, or append a new one. -/
def setJ (fields : List (String × J)) (k : String) (v : J) :
    List (String × J) :=
  if fields.any (fun p => p.fst = k) then
    fields.map fun p => if p.fst = k then (k, v) else p
  else fields ++ [(k, v)]

mutual

/-- Serialize a JSON value (fields in list order; `sonic.Marshal` fixes
some key order, which the byte-level claims here never depend on). -/
def serializeJ : J → String
  | .null => "null"
  | .jbool b => cond b "true" "false"
  | .jnum n => toString n
  | .jstr s => "\"" ++ s ++ "\""
  | .jarr xs => "[" ++ String.intercalate "," (serializeJList xs) ++ "]"
  | .jobj fs => "\x7b" ++ String.intercalate "," (serializeJFields fs) ++ "\x7d"

def serializeJList : List J → List String
  | [] => []
  | x :: xs => serializeJ x :: serializeJList xs

def serializeJFields : List (String × J) → List String
  | [] => []
  | (k, v) :: fs =>
      ("\"" ++ k ++ "\":" ++ serializeJ v) :: serializeJFields fs

end

/-- A raw status payload: its bytes together with the JSON value
`sonic.Unmarshal` produces on them (`none` when they do not parse as a
JSON object into `map[string]any`). -/
structure Raw where
  bytes : String
  parsed : Option J

/-- `sonic.Marshal` of a JSON value. -/
def Marshal (j : J) : Raw :=
  { bytes := serializeJ j, parsed := some j }

/-- The configuration fields the syncer reads (`upstream.override_version`
and the `messages` group feeding the default and override payloads). -/
structure SyncConfig where
  overrideVersion : Bool
  versionName : String
  protocolVersion : ℤ
  maxPlayers : ℤ
  onlinePlayers : ℤ
  motd : String

/-- `UpstreamSyncer` state: the cached payload and the unavailable flag. -/
structure SyncState where
  cachedResponse : Raw
  upstreamUnavailable : Bool

/-- The syncer's observable log events: the single "offline" rewrite
notice and the per-success sync notice. -/
inductive SyncEvent where
  | wentOffline
  | syncSuccess
  deriving Repr, DecidableEq

/-- `createDefaultResponse`: the synthesized payload built from the
`messages` configuration (version, players, description, empty
favicon). -/
def createDefaultResponse (cfg : SyncConfig) : Raw :=
  Marshal (J.jobj
    [("version", .jobj [("name", .jstr cfg.versionName),
                        ("protocol", .jnum cfg.protocolVersion)]),
     ("players", .jobj [("max", .jnum cfg.maxPlayers),
                        ("online", .jnum cfg.onlinePlayers)]),
     ("description", .jobj [("text", .jstr cfg.motd)]),
     ("favicon", .jstr "")])

/-- `overrideVersionInfo`: parse the upstream payload; on failure return
`nil`.  Otherwise set `version.name` and `version.protocol` to the
configured values (replacing the whole `version` entry when it is missing
or not an object) and reserialize. -/
def overrideVersionInfo (cfg : SyncConfig) (upstreamResp : Raw) :
    Option Raw :=
  match upstreamResp.parsed with
  | some (J.jobj fs) =>
      let fs' :=
        match getJ fs "version" with
        | some (J.jobj vf) =>
            setJ fs "version"
              (.jobj (setJ (setJ vf "name" (.jstr cfg.versionName))
                "protocol" (.jnum cfg.protocolVersion)))
        | _ =>
            setJ fs "version"
              (.jobj [("name", .jstr cfg.versionName),
                      ("protocol", .jnum cfg.protocolVersion)])
      some (Marshal (.jobj fs'))
  | _ => none

/-- `createOfflineResponse`: parse the cached payload; on failure return
`nil`.  Otherwise set `players.online` to 0 (leaving the payload alone
when `players` is missing or not an object) and reserialize. -/
def createOfflineResponse (cachedResp : Raw) : Option Raw :=
  match cachedResp.parsed with
  | some (J.jobj fs) =>
      let fs' :=
        match getJ fs "players" with
        | some (J.jobj pf) =>
            setJ fs "players" (.jobj (setJ pf "online" (.jnum 0)))
        | _ => fs
      some (Marshal (.jobj fs'))
  | _ => none

/-- `updateState` (successful poll): cache the override-rewritten payload
when `override_version` is set and the rewrite succeeded, the raw payload
otherwise; clear the unavailable flag. -/
def updateState (cfg : SyncConfig) (resp : Raw) : SyncState :=
  let cached :=
    if cfg.overrideVersion then
      match overrideVersionInfo cfg resp with
      | some modified => modified
      | none => resp
    else resp
  { cachedResponse := cached, upstreamUnavailable := false }

/-- `updateStateOffline` (exhausted retries): return unchanged with no
log line when the flag is already set; otherwise rewrite the non-empty
cache to its `players.online = 0` variant (or seed the default payload if
the cache were empty), set the flag, and log once. -/
def updateStateOffline (cfg : SyncConfig) (s : SyncState) :
    SyncState × List SyncEvent :=
  if s.upstreamUnavailable then (s, [])
  else
    let cached :=
      if s.cachedResponse.bytes ≠ "" then
        match createOfflineResponse s.cachedResponse with
        | some modified => modified
        | none => s.cachedResponse
      else createDefaultResponse cfg
    ({ cachedResponse := cached, upstreamUnavailable := true },
     [.wentOffline])

/-- `syncOnce`: run the retry loop over the per-attempt outcomes (one
entry per attempt, `retry_count + 1` of them when every attempt is made);
the first success updates the cache and logs the success line, and if
every attempt failed the state degrades through `updateStateOffline`. -/
def syncOnce (cfg : SyncConfig) (s : SyncState)
    (attempts : List (Option Raw)) : SyncState × List SyncEvent :=
  match attempts.findSome? id with
  | some resp => (updateState cfg resp, [.syncSuccess])
  | none => updateStateOffline cfg s

/-- A run of consecutive poll ticks, collecting the log events. -/
def runSync (cfg : SyncConfig) (s : SyncState)
    (polls : List (List (Option Raw))) : SyncState × List SyncEvent :=
  polls.foldl
    (fun acc att =>
      let step := syncOnce cfg acc.fst att
      (step.fst, acc.snd ++ step.snd))
    (s, [])

/-! ## Helper lemmas -/

/-- The per-IP frequency factor never drops below 1: both branches of
`calculateIPFrequency` clamp at 1. -/
theorem one_le_calculateIPFrequency (cfg : RLConfig) (info : IPLimiterInfo)
    (now : ℚ) : 1 ≤ calculateIPFrequency cfg info now := by
  unfold calculateIPFrequency
  dsimp only
  split
  · exact le_refl 1
  · exact le_max_left 1 _

/-- The global load factor never drops below 1. -/
theorem one_le_calculateGlobalLoad (cfg : RLConfig) (s : RLState)
    (now : ℚ) : 1 ≤ calculateGlobalLoad cfg s now := by
  unfold calculateGlobalLoad
  dsimp only
  split
  · exact le_refl 1
  · exact le_max_left 1 _

/-! ## C9 -/

/-- C9: `GetIPFrequency` returns 0 for a never-seen address, 0 for a seen
address at zero elapsed time since first-seen, and otherwise the raw
request count divided by the elapsed seconds. -/
theorem c9_get_ip_frequency (s : RLState) (ip : String) (now : ℚ) :
    (lookupIP s ip = none → GetIPFrequency s ip now = 0) ∧
    (∀ info, lookupIP s ip = some info →
      (now - info.firstRequest = 0 → GetIPFrequency s ip now = 0) ∧
      (now - info.firstRequest ≠ 0 →
        GetIPFrequency s ip now =
          (info.requestCount : ℚ) / (now - info.firstRequest))) := by
  unfold GetIPFrequency
  constructor
  · intro h
    rw [h]
  · intro info h
    rw [h]
    constructor <;> intro hd <;> simp [hd]

/-! ## C2 -/

/-- C2: in `Allow`, the global bucket is tried first and its denial
returns at once with the whole state — the per-IP table included —
untouched; once the global token is taken it is never refunded; a per-IP
denial (possible only for an already-known record when `ip_limit ≥ 1`,
since a fresh bucket is full) leaves every per-IP counter and timestamp
unchanged; and an admission takes exactly one token from the global
bucket and then exactly one from the per-IP bucket, bumps that record's
request counter and last-seen timestamp, and bumps the global counters. -/
theorem c2_allow (cfg : RLConfig) (s : RLState) (ip : String) (now : ℚ) :
    (s.globalTokens < 1 → Allow cfg s ip now = (false, s)) ∧
    (¬ s.globalTokens < 1 →
      (Allow cfg s ip now).snd.globalTokens = s.globalTokens - 1) ∧
    (∀ info, ¬ s.globalTokens < 1 → lookupIP s ip = some info →
      info.tokens < 1 →
      Allow cfg s ip now =
        (false, { s with globalTokens := s.globalTokens - 1 })) ∧
    (¬ s.globalTokens < 1 → lookupIP s ip = none → 1 ≤ cfg.ipLimit →
      Allow cfg s ip now =
        (true,
          { globalTokens := s.globalTokens - 1
            ipLimiters := s.ipLimiters ++
              [(ip, { tokens := cfg.ipLimit - 1, requestCount := 1,
                      firstRequest := now, lastRequest := now })]
            globalRequests := s.globalRequests + 1
            totalRequests := s.totalRequests + 1
            startTime := s.startTime })) ∧
    (∀ info, ¬ s.globalTokens < 1 → lookupIP s ip = some info →
      ¬ info.tokens < 1 →
      Allow cfg s ip now =
        (true,
          { globalTokens := s.globalTokens - 1
            ipLimiters := s.ipLimiters.map fun p =>
              if p.fst = ip then
                (ip, { tokens := info.tokens - 1,
                       requestCount := info.requestCount + 1,
                       firstRequest := info.firstRequest,
                       lastRequest := now })
              else p
            globalRequests := s.globalRequests + 1
            totalRequests := s.totalRequests + 1
            startTime := s.startTime })) := by
  have hlk : ∀ t : ℚ, lookupIP { s with globalTokens := t } ip =
      lookupIP s ip := fun _ => rfl
  have hmap : ∀ l : List (String × IPLimiterInfo),
      l.find? (fun p => p.fst = ip) = none →
      ∀ info' : IPLimiterInfo,
      l.map (fun p => if p.fst = ip then (ip, info') else p) = l := by
    intro l hnone info'
    have hall := List.find?_eq_none.mp hnone
    calc l.map (fun p => if p.fst = ip then (ip, info') else p)
        = l.map id := by
          apply List.map_congr_left
          intro a ha
          have := hall a ha
          simp only [decide_eq_true_eq] at this
          simp [this]
      _ = l := List.map_id l
  refine ⟨?_, ?_, ?_, ?_, ?_⟩
  · intro h
    simp [Allow, h]
  · intro h
    simp only [Allow, if_neg h, getOrCreateIPLimiter, hlk]
    rcases hl : lookupIP s ip with _ | info <;> dsimp only <;>
      split <;> simp [updateStats, storeIP]
  · intro info h hl htok
    simp only [Allow, if_neg h, getOrCreateIPLimiter, hlk, hl, if_pos htok]
  · intro h hl hip
    have htok : ¬ cfg.ipLimit < 1 := not_lt.mpr hip
    have hnone : s.ipLimiters.find? (fun p => p.fst = ip) = none := by
      unfold lookupIP at hl
      exact Option.map_eq_none'.mp hl
    simp only [Allow, if_neg h, getOrCreateIPLimiter, hlk, hl, if_neg htok,
      updateStats, storeIP, List.map_append]
    rw [hmap _ hnone, hmap _ hnone]
    simp
  · intro info h hl htok
    simp only [Allow, if_neg h, getOrCreateIPLimiter, hlk, hl, if_neg htok,
      updateStats, storeIP, List.map_map]
    refine congrArg (Prod.mk true) ?_
    congr 1
    apply List.map_congr_left
    intro a _
    by_cases ha : a.fst = ip <;> simp [Function.comp, ha]

/-- Witness for C2: admitting the first request from address `"a"` on the
default configuration takes one global token (100 → 99), creates the
per-IP record with one token spent (5 → 4), count 1 and timestamps `now`,
and bumps the global counters. -/
theorem c2_allow_witness :
    Allow defaultRLConfig (initialRLState defaultRLConfig 0) "a" 2 =
      (true,
        { globalTokens := 99
          ipLimiters := [("a", { tokens := 4, requestCount := 1,
                                 firstRequest := 2, lastRequest := 2 })]
          globalRequests := 1
          totalRequests := 1
          startTime := 0 }) := by
  have h := (c2_allow defaultRLConfig (initialRLState defaultRLConfig 0)
    "a" 2).2.2.2.1 (by norm_num [initialRLState, defaultRLConfig])
    (by rfl) (by norm_num [defaultRLConfig])
  rw [h]
  norm_num [initialRLState, defaultRLConfig]

/-! ## VarInt lemmas -/

/-- The encoder emits at least one byte (the loop body runs at least
once). -/
theorem encodeVarInt_length_pos (v : ℕ) : 1 ≤ (encodeVarInt v).length := by
  rw [encodeVarInt]
  split <;> simp

/-- Decoding the encoder's output from any starting shift that leaves
room for all its bytes recovers the value. -/
theorem decodeVarIntAux_encodeVarInt (v : ℕ) : ∀ shift acc : ℕ,
    shift + 7 * ((encodeVarInt v).length - 1) < 35 →
    decodeVarIntAux (encodeVarInt v) shift acc =
      some (acc + v * 2 ^ shift) := by
  induction v using Nat.strong_induction_on with
  | _ v ih =>
    intro shift acc hroom
    rw [encodeVarInt] at hroom ⊢
    by_cases h : v < 128
    · rw [dif_pos h] at hroom ⊢
      simp only [List.length_singleton] at hroom
      unfold decodeVarIntAux
      rw [if_neg (by omega), if_pos h]
    · rw [dif_neg h] at hroom ⊢
      simp only [List.length_cons] at hroom
      have hlen1 : 1 ≤ (encodeVarInt (v / 128)).length :=
        encodeVarInt_length_pos (v / 128)
      unfold decodeVarIntAux
      rw [if_neg (by omega), if_neg (by omega)]
      have hrec := ih (v / 128) (Nat.div_lt_self (by omega) (by omega))
        (shift + 7) (acc + (v % 128 + 128 - 128) * 2 ^ shift) (by omega)
      rw [hrec]
      have hv : v % 128 + 128 * (v / 128) = v := Nat.mod_add_div v 128
      have hsub : v % 128 + 128 - 128 = v % 128 := by omega
      rw [hsub]
      have harith : acc + v % 128 * 2 ^ shift + v / 128 * 2 ^ (shift + 7) =
          acc + v * 2 ^ shift := by
        conv_rhs => rw [← hv]
        ring
      rw [harith]

/-- The encoder's output fits in `k` bytes whenever the value fits in
`7k` bits. -/
theorem encodeVarInt_length_le : ∀ (k v : ℕ), v < 128 ^ k → 1 ≤ k →
    (encodeVarInt v).length ≤ k := by
  intro k
  induction k with
  | zero => omega
  | succ k ih =>
    intro v hv _
    rw [encodeVarInt]
    by_cases h : v < 128
    · rw [dif_pos h]
      have : ([v] : List ℕ).length = 1 := rfl
      omega
    · rw [dif_neg h]
      simp only [List.length_cons]
      rcases Nat.eq_zero_or_pos k with hk | hk
      · subst hk
        norm_num at hv
        omega
      · have hdiv : v / 128 < 128 ^ k := by
          rw [Nat.div_lt_iff_lt_mul (by omega)]
          calc v < 128 ^ (k + 1) := hv
            _ = 128 ^ k * 128 := by ring
        have := ih (v / 128) hdiv hk
        omega

/-- Any value a byte string of genuine bytes (`< 256`) decodes to is
bounded by the bits it can carry: `v < 128 ^ length` (stated with the
starting shift and accumulator generalized). -/
theorem decodeVarIntAux_le : ∀ (l : List ℕ) (shift acc v : ℕ),
    (∀ b ∈ l, b < 256) → decodeVarIntAux l shift acc = some v →
    v + 2 ^ shift ≤ acc + 2 ^ shift * 128 ^ l.length := by
  intro l
  induction l with
  | nil => intro shift acc v _ hd; exact absurd hd (by simp [decodeVarIntAux])
  | cons b rest ih =>
    intro shift acc v hb hd
    unfold decodeVarIntAux at hd
    rw [List.length_cons]
    by_cases hs : 35 ≤ shift
    · rw [if_pos hs] at hd
      exact absurd hd (by simp)
    · rw [if_neg hs] at hd
      have hpow : (128 : ℕ) ≤ 128 ^ (rest.length + 1) :=
        Nat.le_self_pow (by omega) 128
      have hS : 2 ^ shift * 128 ^ (rest.length + 1) =
          128 * (2 ^ shift * 128 ^ rest.length) := by ring
      by_cases hcont : b < 128
      · rw [if_pos hcont] at hd
        have hv : v = acc + b * 2 ^ shift := by
          cases hd
          rfl
        have hT : b * 2 ^ shift ≤ 127 * 2 ^ shift :=
          Nat.mul_le_mul_right _ (by omega)
        have hP : 2 ^ shift * 128 ≤ 2 ^ shift * 128 ^ (rest.length + 1) :=
          Nat.mul_le_mul_left _ hpow
        omega
      · rw [if_neg hcont] at hd
        have hb256 : b < 256 := hb b (by simp)
        have hrest : ∀ x ∈ rest, x < 256 := fun x hx => hb x (by simp [hx])
        have hrec := ih (shift + 7) (acc + (b - 128) * 2 ^ shift) v hrest hd
        have hT : (b - 128) * 2 ^ shift ≤ 127 * 2 ^ shift :=
          Nat.mul_le_mul_right _ (by omega)
        have h7 : 2 ^ (shift + 7) = 128 * 2 ^ shift := by
          rw [pow_add]
          ring
        rw [h7] at hrec
        have h8 : 128 * 2 ^ shift * 128 ^ rest.length =
            2 ^ shift * 128 ^ (rest.length + 1) := by ring
        rw [h8] at hrec
        omega

/-! ## C7 -/

/-- C7: for every `v ≤ 100000`, decoding the encoding of `v` yields `v`,
the encoding is 1–3 bytes long, and it is minimal: no byte string (of
genuine bytes) decoding to `v` is shorter. -/
theorem c7_varint_roundtrip (v : ℕ) (hv : v ≤ 100000) :
    decodeVarInt (encodeVarInt v) = some v ∧
    1 ≤ (encodeVarInt v).length ∧ (encodeVarInt v).length ≤ 3 ∧
    ∀ l : List ℕ, (∀ b ∈ l, b < 256) → decodeVarInt l = some v →
      (encodeVarInt v).length ≤ l.length := by
  have hlen3 : (encodeVarInt v).length ≤ 3 :=
    encodeVarInt_length_le 3 v (by norm_num; omega) (by norm_num)
  have hlen1 : 1 ≤ (encodeVarInt v).length := encodeVarInt_length_pos v
  refine ⟨?_, hlen1, hlen3, ?_⟩
  · have := decodeVarIntAux_encodeVarInt v 0 0 (by omega)
    unfold decodeVarInt
    simpa using this
  · intro l hb hd
    have hne : l ≠ [] := by
      intro h
      subst h
      exact absurd hd (by simp [decodeVarInt, decodeVarIntAux])
    have hbound := decodeVarIntAux_le l 0 0 v hb hd
    simp only [pow_zero, one_mul, Nat.zero_add] at hbound
    have hvlt : v < 128 ^ l.length := by
      have : (1 : ℕ) ≤ 128 ^ l.length := Nat.one_le_pow _ _ (by omega)
      omega
    exact encodeVarInt_length_le l.length v hvlt
      (by cases l with
        | nil => exact absurd rfl hne
        | cons x xs => simp)

/-- Witness for C7 at `v = 600` (the two-byte encoding `[0xD8, 0x04]`):
the roundtrip holds, the length is within 1–3, and padding the encoding
out to the 3-byte string `[216, 132, 0]` (which also decodes to 600)
cannot beat it. -/
theorem c7_varint_roundtrip_witness :
    decodeVarInt (encodeVarInt 600) = some 600 ∧
    1 ≤ (encodeVarInt 600).length ∧ (encodeVarInt 600).length ≤ 3 ∧
    (encodeVarInt 600).length ≤ ([216, 132, 0] : List ℕ).length := by
  have h := c7_varint_roundtrip 600 (by norm_num)
  exact ⟨h.1, h.2.1, h.2.2.1,
    h.2.2.2 [216, 132, 0] (by decide) (by decide)⟩

/-! ## C10 -/

/-- On a non-negative value the `encodeVarIntFuel` loop agrees with the
structural encoder, finishing in exactly as many iterations as there are
output bytes. -/
theorem encodeVarIntFuel_ofNat (n : ℕ) :
    encodeVarIntFuel ((encodeVarInt n).length) (n : ℤ) =
      some (encodeVarInt n) := by
  induction n using Nat.strong_induction_on with
  | _ n ih =>
    rw [encodeVarInt]
    by_cases h : n < 128
    · rw [dif_pos h]
      unfold encodeVarIntFuel
      have hmod : ((n : ℤ) % 128).toNat = n := by omega
      have hdiv : (n : ℤ) / 128 = 0 := by omega
      simp [hmod, hdiv]
    · rw [dif_neg h]
      simp only [List.length_cons]
      unfold encodeVarIntFuel
      have hmod : ((n : ℤ) % 128).toNat = n % 128 := by omega
      have hdiv : (n : ℤ) / 128 = ((n / 128 : ℕ) : ℤ) := by omega
      have hne : (n : ℤ) / 128 ≠ 0 := by omega
      rw [if_neg hne, hdiv,
        ih (n / 128) (Nat.div_lt_self (by omega) (by omega))]
      simp [hmod]

/-- C10: `encodeVarInt` terminates on every non-negative input — the loop
finishes in exactly one iteration per output byte, of which there is at
least one — while on every negative input the loop never terminates, no
matter how many iterations it is given: the arithmetic shift
`value >>= 7` (flooring division by 128) keeps a negative value negative
forever. -/
theorem c10_encode_varint_termination :
    (∀ v : ℤ, 0 ≤ v →
      encodeVarIntFuel ((encodeVarInt v.toNat).length) v =
        some (encodeVarInt v.toNat) ∧
      1 ≤ (encodeVarInt v.toNat).length) ∧
    (∀ v : ℤ, v < 0 → ∀ fuel : ℕ, encodeVarIntFuel fuel v = none) := by
  constructor
  · intro v hv
    have := encodeVarIntFuel_ofNat v.toNat
    rw [Int.toNat_of_nonneg hv] at this
    exact ⟨this, encodeVarInt_length_pos v.toNat⟩
  · intro v hv fuel
    induction fuel generalizing v with
    | zero => rfl
    | succ f ih =>
      unfold encodeVarIntFuel
      have hneg : v / 128 < 0 := Int.ediv_neg' hv (by norm_num)
      rw [if_neg (by omega), ih (v / 128) hneg]

/-- Witness for C10: the repo's only call site feeds the constant 9 (the
Pong frame length), which terminates with one byte; on input `-1` the
loop makes no progress in 5 iterations (nor any other number). -/
theorem c10_encode_varint_termination_witness :
    (encodeVarIntFuel ((encodeVarInt (9 : ℤ).toNat).length) 9 =
        some (encodeVarInt (9 : ℤ).toNat) ∧
      1 ≤ (encodeVarInt (9 : ℤ).toNat).length) ∧
    encodeVarIntFuel 5 (-1) = none :=
  ⟨c10_encode_varint_termination.1 9 (by norm_num),
   c10_encode_varint_termination.2 (-1) (by norm_num) 5⟩

/-! ## C1 -/

/-- C1 counterexample: on the defaulted configuration, an address making
its first contact (fresh limiter, no prior requests at all) does NOT get
`base_delay` back from `CalculateDelay`.  The frequency and load factors
are clamped below at 1, so the first contact pays
`100ms + min(5s, 1·2·100ms) + min(2s, 1·1.5·100ms) = 450ms ≠ 100ms`. -/
theorem c1_counterexample :
    (CalculateDelay defaultRLConfig (initialRLState defaultRLConfig 0)
        "203.0.113.7" 0).fst ≠ defaultRLConfig.baseDelay := by
  norm_num [CalculateDelay, getOrCreateIPLimiter, lookupIP, initialRLState,
    calculateIPFrequency, calculateGlobalLoad, defaultRLConfig]

/-- C1 amended: when the configured delays and multipliers are
nonnegative, `CalculateDelay` always returns a value in
`[base_delay, base_delay + max_ip_penalty + max_global_penalty]`; but for
an address making its first contact the value is
`base_delay + min(max_ip_penalty, ip_rate_multiplier · base_delay)
 + min(max_global_penalty, global_load · global_rate_multiplier · base_delay)`
(the frequency factor is clamped at 1, never 0), which exceeds
`base_delay` whenever the caps and multipliers are positive. -/
theorem c1_amended (cfg : RLConfig) (s : RLState) (ip : String) (now : ℚ)
    (hb : 0 ≤ cfg.baseDelay) (hip : 0 ≤ cfg.maxIPPenalty)
    (hgp : 0 ≤ cfg.maxGlobalPenalty) (him : 0 ≤ cfg.ipRateMultiplier)
    (hgm : 0 ≤ cfg.globalRateMultiplier) :
    (cfg.baseDelay ≤ (CalculateDelay cfg s ip now).fst ∧
      (CalculateDelay cfg s ip now).fst ≤
        cfg.baseDelay + cfg.maxIPPenalty + cfg.maxGlobalPenalty) ∧
    (lookupIP s ip = none →
      (CalculateDelay cfg s ip now).fst =
        cfg.baseDelay +
          min cfg.maxIPPenalty (cfg.ipRateMultiplier * cfg.baseDelay) +
          min cfg.maxGlobalPenalty
            (calculateGlobalLoad cfg s now * cfg.globalRateMultiplier *
              cfg.baseDelay)) := by
  constructor
  · rcases hgo : getOrCreateIPLimiter cfg s ip now with ⟨info, s'⟩
    have hdelay : (CalculateDelay cfg s ip now).fst =
        cfg.baseDelay +
          min cfg.maxIPPenalty
            (calculateIPFrequency cfg info now * cfg.ipRateMultiplier *
              cfg.baseDelay) +
          min cfg.maxGlobalPenalty
            (calculateGlobalLoad cfg s' now * cfg.globalRateMultiplier *
              cfg.baseDelay) := by
      unfold CalculateDelay
      rw [hgo]
    have hf : (1 : ℚ) ≤ calculateIPFrequency cfg info now :=
      one_le_calculateIPFrequency cfg info now
    have hg : (1 : ℚ) ≤ calculateGlobalLoad cfg s' now :=
      one_le_calculateGlobalLoad cfg s' now
    have hipen : 0 ≤ min cfg.maxIPPenalty
        (calculateIPFrequency cfg info now * cfg.ipRateMultiplier *
          cfg.baseDelay) :=
      le_min hip (mul_nonneg (mul_nonneg (by linarith) him) hb)
    have hgpen : 0 ≤ min cfg.maxGlobalPenalty
        (calculateGlobalLoad cfg s' now * cfg.globalRateMultiplier *
          cfg.baseDelay) :=
      le_min hgp (mul_nonneg (mul_nonneg (by linarith) hgm) hb)
    have hiple := min_le_left cfg.maxIPPenalty
      (calculateIPFrequency cfg info now * cfg.ipRateMultiplier *
        cfg.baseDelay)
    have hgple := min_le_left cfg.maxGlobalPenalty
      (calculateGlobalLoad cfg s' now * cfg.globalRateMultiplier *
        cfg.baseDelay)
    rw [hdelay]
    constructor <;> linarith
  · intro hl
    have hfreq : calculateIPFrequency cfg
        { tokens := cfg.ipLimit, requestCount := 0,
          firstRequest := now, lastRequest := now } now = 1 := by
      unfold calculateIPFrequency
      simp
    unfold CalculateDelay getOrCreateIPLimiter
    rw [hl]
    dsimp only
    rw [hfreq]
    have hload : calculateGlobalLoad cfg
        { s with ipLimiters := s.ipLimiters ++
            [(ip, { tokens := cfg.ipLimit, requestCount := 0,
                    firstRequest := now, lastRequest := now })] } now =
        calculateGlobalLoad cfg s now := rfl
    rw [hload, one_mul]

/-- Witness for C1 amended, at the defaulted configuration on a fresh
limiter: the bounds hold and the first contact pays exactly
`100ms + 200ms + 150ms = 450ms`. -/
theorem c1_amended_witness :
    ((100000000 : ℚ) ≤
        (CalculateDelay defaultRLConfig (initialRLState defaultRLConfig 0)
          "a" 0).fst ∧
      (CalculateDelay defaultRLConfig (initialRLState defaultRLConfig 0)
          "a" 0).fst ≤ 100000000 + 5000000000 + 2000000000) ∧
    (CalculateDelay defaultRLConfig (initialRLState defaultRLConfig 0)
        "a" 0).fst =
      100000000 + min 5000000000 (2 * 100000000) +
        min 2000000000
          (calculateGlobalLoad defaultRLConfig
              (initialRLState defaultRLConfig 0) 0 * (3 / 2) * 100000000) := by
  have h := c1_amended defaultRLConfig (initialRLState defaultRLConfig 0)
    "a" 0 (by norm_num [defaultRLConfig]) (by norm_num [defaultRLConfig])
    (by norm_num [defaultRLConfig]) (by norm_num [defaultRLConfig])
    (by norm_num [defaultRLConfig])
  exact ⟨h.1, h.2 rfl⟩

/-- Witness for C9 at a concrete state: the address `"b"` was never seen
(frequency 0) and the address `"a"` has 3 admitted requests over
2 seconds (frequency 3/2). -/
theorem c9_get_ip_frequency_witness :
    GetIPFrequency ⟨100, [("a", ⟨5, 3, 2, 10⟩)], 3, 3, 0⟩ "b" 4 = 0 ∧
    GetIPFrequency ⟨100, [("a", ⟨5, 3, 2, 10⟩)], 3, 3, 0⟩ "a" 4 = 3 / 2 := by
  constructor
  · exact (c9_get_ip_frequency ⟨100, [("a", ⟨5, 3, 2, 10⟩)], 3, 3, 0⟩
      "b" 4).1 (by rfl)
  · have h := ((c9_get_ip_frequency ⟨100, [("a", ⟨5, 3, 2, 10⟩)], 3, 3, 0⟩
      "a" 4).2 ⟨5, 3, 2, 10⟩ (by rfl)).2 (by norm_num)
    rw [h]
    norm_num

/-! ## C3 -/

/-- C3 counterexample: a connection that reaches the Login arm of
`GoMCHandler.handleLogin` with a LoginStart packet whose fields fail to
scan produces NO `login_attempt` event and NO login-disconnect write at
all — the handler returns the scan error first — contradicting the claim
that every such connection emits exactly one event (with an empty
username for an unparseable packet) and one disconnect write. -/
theorem c3_counterexample :
    handleLoginGoMC ⟨"198.51.100.9", true, true⟩ true "bye" 450
      LoginReadResult.scanErr =
      { writes := [], events := [], ok := false } := rfl

/-- C3 amended: with honeypot logging enabled, the wired
`FastHandler.handleLoginFast` writes exactly one login-disconnect packet
carrying `{"text": kick}`, and emits exactly one `login_attempt` event —
always with an EMPTY username (it never reads a LoginStart packet), and
only when the disconnect write succeeded (a failed write leaves no
event); `GoMCHandler.handleLogin` emits exactly one event with the parsed
username and one disconnect write when LoginStart parses, and emits no
event and writes nothing when the read, the packet id, or the field scan
fails. -/
theorem c3_amended (ip kick : String) (d : ℤ) :
    (∀ w : Bool,
      (handleLoginFast ⟨ip, true, w⟩ true kick d).writes =
        [.loginDisconnect (textComponent kick)]) ∧
    (handleLoginFast ⟨ip, true, true⟩ true kick d).events =
      [.loginAttempt ip "" d] ∧
    (handleLoginFast ⟨ip, true, false⟩ true kick d).events = [] ∧
    (∀ u : String, ∀ w : Bool,
      handleLoginGoMC ⟨ip, true, w⟩ true kick d (.ok u) =
        { writes := [.loginDisconnect (textComponent kick)]
          events := [.loginAttempt ip u d]
          ok := w }) ∧
    (∀ r : LoginReadResult, (∀ u, r ≠ .ok u) →
      handleLoginGoMC ⟨ip, true, true⟩ true kick d r =
        { writes := [], events := [], ok := false }) := by
  refine ⟨?_, rfl, rfl, ?_, ?_⟩
  · intro w
    cases w <;> rfl
  · intro u w
    rfl
  · intro r hr
    cases r with
    | readErr => rfl
    | wrongId i => rfl
    | scanErr => rfl
    | ok u => exact absurd rfl (hr u)

/-- Witness for C3 amended at concrete inputs: the fast handler's event
carries the empty username and the disconnect payload is
`{"text":"bye"}`; the go-mc handler with username `"alice"` emits that
username; a read error yields nothing. -/
theorem c3_amended_witness :
    (handleLoginFast ⟨"203.0.113.5", true, true⟩ true "bye" 450).writes =
      [.loginDisconnect (textComponent "bye")] ∧
    (handleLoginFast ⟨"203.0.113.5", true, true⟩ true "bye" 450).events =
      [.loginAttempt "203.0.113.5" "" 450] ∧
    handleLoginGoMC ⟨"203.0.113.5", true, true⟩ true "bye" 450
        (.ok "alice") =
      { writes := [.loginDisconnect (textComponent "bye")]
        events := [.loginAttempt "203.0.113.5" "alice" 450]
        ok := true } ∧
    handleLoginGoMC ⟨"203.0.113.5", true, true⟩ true "bye" 450 .readErr =
      { writes := [], events := [], ok := false } := by
  have h := c3_amended "203.0.113.5" "bye" 450
  exact ⟨h.1 true, h.2.1, h.2.2.2.1 "alice" true,
    h.2.2.2.2 .readErr (fun u hu => by cases hu)⟩

/-! ## C5 -/

set_option maxRecDepth 8192 in
/-- C5 counterexample: a first frame declaring length 600 — its length
prefix is the VarInt `[0xD8, 0x04]`, so the byte the handler reads as the
packet id is `0x04` — on a 512-byte read through the wired
`FastHandler.processPacketFast` gets ONE status response written back and
NO `protocol_violation` event: the handler checks only the byte count it
actually read (at most 512, the buffer size), never the declared length,
and an unknown packet id falls through to a status response. -/
theorem c5_counterexample :
    processPacketFast ⟨"198.51.100.7", true, true⟩ true "status" "bye" 450
      ([216, 4] ++ List.replicate 510 0) =
      { writes := [.status "status"], events := [], ok := true } := by
  decide

/-- C5 amended: the wired handler never validates a frame's declared
length; its oversize guard compares only the bytes actually read, and
`HandleConnection` reads at most `MaxPacketSize = 512` bytes at a time,
so the guard can never fire.  Any read of 2–512 bytes whose second byte —
the position the handler treats as the packet id — is neither `0x00` nor
`0x01` (which covers every frame declaring a length in `513..16383`,
whose second length-prefix byte is `4..127`) is answered with exactly one
status response and produces no `protocol_violation` event. -/
theorem c5_amended (ip statusJSON kick : String) (d : ℤ) (data : List ℕ)
    (hlen : data.length ≤ 512) (hlen2 : 2 ≤ data.length)
    (hid0 : data.getD 1 0 ≠ 0) (hid1 : data.getD 1 0 ≠ 1) :
    processPacketFast ⟨ip, true, true⟩ true statusJSON kick d data =
      { writes := [.status statusJSON], events := [], ok := true } := by
  have hpre : quickPreCheck data = none := by
    unfold quickPreCheck MaxPacketSize
    rw [if_neg (by omega), if_neg (by omega)]
  unfold processPacketFast
  rw [hpre]
  rw [if_neg (by omega), if_neg hid0, if_neg hid1]
  rfl

set_option maxRecDepth 8192 in
/-- Witness for C5 amended at the concrete 512-byte read of a frame
declaring length 600. -/
theorem c5_amended_witness :
    processPacketFast ⟨"198.51.100.8", true, true⟩ true "s" "k" 450
      ([216, 4] ++ List.replicate 510 0) =
      { writes := [.status "s"], events := [], ok := true } := by
  have h512 : ([216, 4] ++ List.replicate 510 0 : List ℕ).length = 512 := by
    rw [List.length_append, List.length_replicate]
    rfl
  exact c5_amended "198.51.100.8" "s" "k" 450 _
    (by rw [h512]) (by rw [h512]; norm_num) (by decide) (by decide)

/-! ## JSON object lemmas -/

/-- After `m[k] = v`, reading `k` back gives `v`. -/
theorem getJ_setJ_self : ∀ (fs : List (String × J)) (k : String) (v : J),
    getJ (setJ fs k v) k = some v := by
  intro fs k v
  unfold setJ
  by_cases h : fs.any (fun p => p.fst = k)
  · rw [if_pos h]
    induction fs with
    | nil => simp at h
    | cons p rest ih =>
      rw [List.map_cons]
      by_cases hp : p.fst = k
      · rw [if_pos hp]
        simp [getJ, List.find?_cons_of_pos]
      · rw [if_neg hp]
        have hrest : rest.any (fun p => p.fst = k) := by
          rcases List.any_eq_true.mp h with ⟨x, hx, hxk⟩
          rcases List.mem_cons.mp hx with hhead | htail
          · subst hhead
            simp only [decide_eq_true_eq] at hxk
            exact absurd hxk hp
          · exact List.any_eq_true.mpr ⟨x, htail, hxk⟩
        have := ih hrest
        unfold getJ at this ⊢
        rw [List.find?_cons_of_neg _ (by simpa using hp)]
        exact this
  · rw [if_neg h]
    have hnone : fs.find? (fun p => p.fst = k) = none := by
      rw [List.find?_eq_none]
      intro x hx
      intro hxk
      exact h (List.any_eq_true.mpr ⟨x, hx, hxk⟩)
    unfold getJ
    induction fs with
    | nil => simp [List.find?_cons_of_pos]
    | cons p rest ih =>
      have hp : ¬ p.fst = k := by
        intro hpk
        exact h (List.any_eq_true.mpr ⟨p, by simp, by simpa using hpk⟩)
      rw [List.cons_append, List.find?_cons_of_neg _ (by simpa using hp)]
      refine ih ?_ ?_
      · intro hany
        rcases List.any_eq_true.mp hany with ⟨x, hx, hxk⟩
        exact h (List.any_eq_true.mpr ⟨x, by simp [hx], hxk⟩)
      · rw [List.find?_eq_none] at hnone ⊢
        intro x hx
        exact hnone x (by simp [hx])

/-- After `m[k] = v`, reading any other key is unchanged. -/
theorem getJ_setJ_other : ∀ (fs : List (String × J)) (k k' : String)
    (v : J), k' ≠ k → getJ (setJ fs k v) k' = getJ fs k' := by
  intro fs k k' v hk
  unfold setJ
  by_cases h : fs.any (fun p => p.fst = k)
  · rw [if_pos h]
    clear h
    induction fs with
    | nil => rfl
    | cons p rest ih =>
      rw [List.map_cons]
      by_cases hp : p.fst = k
      · rw [if_pos hp]
        unfold getJ
        rw [List.find?_cons_of_neg _ (by simp [Ne.symm hk]),
          List.find?_cons_of_neg _ (by simp [hp, Ne.symm hk])]
        exact ih
      · rw [if_neg hp]
        unfold getJ at ih ⊢
        by_cases hp' : p.fst = k'
        · rw [List.find?_cons_of_pos _ (by simpa using hp'),
            List.find?_cons_of_pos _ (by simpa using hp')]
        · rw [List.find?_cons_of_neg _ (by simpa using hp'),
            List.find?_cons_of_neg _ (by simpa using hp')]
          exact ih
  · rw [if_neg h]
    unfold getJ
    induction fs with
    | nil =>
      rw [List.nil_append, List.find?_cons_of_neg _ (by simp [Ne.symm hk])]
    | cons p rest ih =>
      rw [List.cons_append]
      by_cases hp' : p.fst = k'
      · rw [List.find?_cons_of_pos _ (by simpa using hp'),
          List.find?_cons_of_pos _ (by simpa using hp')]
      · rw [List.find?_cons_of_neg _ (by simpa using hp'),
          List.find?_cons_of_neg _ (by simpa using hp')]
        exact ih (fun hany => h (by
          rcases List.any_eq_true.mp hany with ⟨x, hx, hxk⟩
          exact List.any_eq_true.mpr ⟨x, by simp [hx], hxk⟩))

/-! ## C8 -/

/-- In an enabled CSV-mode sink, logging a batch of events appends
exactly one record per event, in order. -/
theorem logEvent_foldl_csv (events : List HoneypotEvent) :
    ∀ st : HLState, st.enabled = true → lowerStr st.format = "csv" →
    (events.foldl LogEvent st).csvRows =
      st.csvRows ++ events.map writeCSV := by
  induction events with
  | nil =>
    intro st _ _
    simp
  | cons e rest ih =>
    intro st h1 h2
    rw [List.foldl_cons]
    have hst : LogEvent st e =
        { st with csvRows := st.csvRows ++ [writeCSV e] } := by
      unfold LogEvent
      rw [h1, h2]
      simp
    rw [hst, ih _ (by simp [h1]) (by simp [h2])]
    simp

/-- C8: opening the sink in CSV mode writes the fixed header row first,
and each logged event contributes exactly one 13-cell record, in the
fixed column order `timestamp, client_ip, event_type, protocol_version,
server_address, server_port, next_state, username, delay_applied_ms,
ip_frequency, error_message, user_agent, geo_location`. -/
theorem c8_csv_shape (cfg : HLConfig) (events : List HoneypotEvent)
    (he : cfg.enabled = true) (hf : lowerStr cfg.format = "csv") :
    (events.foldl LogEvent (newHoneypotLogger cfg)).csvRows =
      csvHeader :: events.map writeCSV ∧
    csvHeader.length = 13 ∧
    (∀ e, (writeCSV e).length = 13) ∧
    (∀ e, writeCSV e =
      [e.timestamp, e.clientIP, e.eventType, toString e.protocolVersion,
       e.serverAddress, toString e.serverPort, toString e.nextState,
       e.username, toString e.delayAppliedMs, formatF2 e.ipFrequency,
       e.errorMessage, e.userAgent, e.geoLocation]) := by
  have hopen : newHoneypotLogger cfg =
      { enabled := true, format := cfg.format, csvRows := [csvHeader]
        jsonLines := [] } := by
    unfold newHoneypotLogger
    rw [he, hf]
    simp
  refine ⟨?_, rfl, fun e => rfl, fun e => rfl⟩
  rw [hopen, logEvent_foldl_csv events _ rfl hf]
  simp

/-- Witness for C8 on the concrete configuration `⟨true, "CSV"⟩` (the
format compare is case-insensitive) and one concrete event. -/
theorem c8_csv_shape_witness :
    ([⟨"2024-01-01T00:00:00Z", "203.0.113.9", "login_attempt", 766, "h",
        25565, 2, "alice", 450, 3/2, "", "", ""⟩].foldl LogEvent
      (newHoneypotLogger ⟨true, "CSV"⟩)).csvRows =
      csvHeader ::
        [writeCSV ⟨"2024-01-01T00:00:00Z", "203.0.113.9", "login_attempt",
          766, "h", 25565, 2, "alice", 450, 3/2, "", "", ""⟩] ∧
    csvHeader.length = 13 ∧
    (writeCSV ⟨"2024-01-01T00:00:00Z", "203.0.113.9", "login_attempt",
      766, "h", 25565, 2, "alice", 450, 3/2, "", "", ""⟩).length = 13 := by
  have h := c8_csv_shape ⟨true, "CSV"⟩
    [⟨"2024-01-01T00:00:00Z", "203.0.113.9", "login_attempt", 766, "h",
      25565, 2, "alice", 450, 3/2, "", "", ""⟩] rfl (by decide)
  exact ⟨by rw [h.1]; simp, h.2.1, h.2.2.1 _⟩

/-! ## C4 -/

/-- A list of all-failed attempts yields no response. -/
theorem findSome?_replicate_none (m : ℕ) :
    (List.replicate m (none : Option Raw)).findSome? id = none := by
  induction m with
  | zero => rfl
  | succ k ih =>
    rw [List.replicate_succ, List.findSome?_cons]
    exact ih

/-- Once the unavailable flag is set, any run of all-failed polls leaves
the state fixed and produces no events. -/
theorem runSync_offline_fixed (cfg : SyncConfig) (s₁ : SyncState)
    (h : s₁.upstreamUnavailable = true) :
    ∀ polls : List (List (Option Raw)),
    (∀ att ∈ polls, att.findSome? id = none) →
    runSync cfg s₁ polls = (s₁, []) := by
  intro polls
  induction polls with
  | nil => intro _; rfl
  | cons att rest ih =>
    intro hall
    have hstep : syncOnce cfg s₁ att = (s₁, []) := by
      unfold syncOnce
      rw [hall att (by simp)]
      unfold updateStateOffline
      rw [h]
      simp
    unfold runSync at ih ⊢
    rw [List.foldl_cons]
    simp only [hstep]
    exact ih (fun a ha => hall a (by simp [ha]))

/-- C4: when every one of the `retry_count + 1` attempts of a poll fails
while the unavailable flag is clear, the cached payload is rewritten once
to the same JSON with `players.online = 0` — every other top-level field
(`version` included) and every other `players` field keeping their last
good values — the flag is set, and one offline notice is logged; any
further all-failed polls leave the state untouched and log nothing; and
the next successful poll overwrites the cache through `updateState` and
clears the flag. -/
theorem c4_offline_degradation (cfg : SyncConfig) (s : SyncState) (n : ℕ)
    (hflag : s.upstreamUnavailable = false)
    (hne : s.cachedResponse.bytes ≠ "")
    (fs pf : List (String × J))
    (hp : s.cachedResponse.parsed = some (.jobj fs))
    (hpl : getJ fs "players" = some (.jobj pf)) :
    syncOnce cfg s (List.replicate (n + 1) none) =
      (⟨Marshal (.jobj (setJ fs "players"
          (.jobj (setJ pf "online" (.jnum 0))))), true⟩,
        [.wentOffline]) ∧
    getJ (setJ fs "players" (.jobj (setJ pf "online" (.jnum 0))))
        "players" = some (.jobj (setJ pf "online" (.jnum 0))) ∧
    getJ (setJ pf "online" (.jnum 0)) "online" = some (.jnum 0) ∧
    (∀ k, k ≠ "players" →
      getJ (setJ fs "players" (.jobj (setJ pf "online" (.jnum 0)))) k =
        getJ fs k) ∧
    (∀ k, k ≠ "online" →
      getJ (setJ pf "online" (.jnum 0)) k = getJ pf k) ∧
    (∀ m, runSync cfg
        ⟨Marshal (.jobj (setJ fs "players"
          (.jobj (setJ pf "online" (.jnum 0))))), true⟩
        (List.replicate m (List.replicate (n + 1) none)) =
      (⟨Marshal (.jobj (setJ fs "players"
          (.jobj (setJ pf "online" (.jnum 0))))), true⟩, [])) ∧
    (∀ (resp : Raw) (attempts : List (Option Raw)),
      attempts.findSome? id = some resp →
      syncOnce cfg
          ⟨Marshal (.jobj (setJ fs "players"
            (.jobj (setJ pf "online" (.jnum 0))))), true⟩ attempts =
        (updateState cfg resp, [.syncSuccess]) ∧
      (updateState cfg resp).upstreamUnavailable = false) := by
  refine ⟨?_, getJ_setJ_self fs "players" _, getJ_setJ_self pf "online" _,
    fun k hk => getJ_setJ_other fs "players" k _ hk,
    fun k hk => getJ_setJ_other pf "online" k _ hk, ?_, ?_⟩
  · unfold syncOnce
    rw [findSome?_replicate_none (n + 1)]
    unfold updateStateOffline
    rw [hflag]
    have hoff : createOfflineResponse s.cachedResponse =
        some (Marshal (.jobj (setJ fs "players"
          (.jobj (setJ pf "online" (.jnum 0)))))) := by
      unfold createOfflineResponse
      rw [hp]
      dsimp only
      rw [hpl]
    simp [hne, hoff]
  · intro m
    exact runSync_offline_fixed cfg _ rfl _
      (fun att hatt => by
        rw [List.eq_of_mem_replicate hatt]
        exact findSome?_replicate_none (n + 1))
  · intro resp attempts hfound
    constructor
    · unfold syncOnce
      rw [hfound]
    · rfl

/-- Witness for C4 at a concrete state: the last good payload
`{"version": {"name": "Paper", "protocol": 765},
  "players": {"max": 100, "online": 7}}` degrades to the same JSON with
`players.online = 0` and `version` untouched. -/
theorem c4_offline_degradation_witness :
    syncOnce ⟨false, "X", 42, 100, 0, "m"⟩
      ⟨⟨"lastgood", some (.jobj
        [("version", .jobj [("name", .jstr "Paper"),
                            ("protocol", .jnum 765)]),
         ("players", .jobj [("max", .jnum 100), ("online", .jnum 7)])])⟩,
        false⟩
      (List.replicate 3 none) =
      (⟨Marshal (.jobj
        [("version", .jobj [("name", .jstr "Paper"),
                            ("protocol", .jnum 765)]),
         ("players", .jobj [("max", .jnum 100), ("online", .jnum 0)])]),
        true⟩, [.wentOffline]) ∧
    getJ [("version", J.jobj [("name", .jstr "Paper"),
            ("protocol", .jnum 765)]),
          ("players", J.jobj [("max", .jnum 100), ("online", .jnum 0)])]
        "version" =
      some (.jobj [("name", .jstr "Paper"), ("protocol", .jnum 765)]) := by
  have h := c4_offline_degradation ⟨false, "X", 42, 100, 0, "m"⟩
    ⟨⟨"lastgood", some (.jobj
      [("version", .jobj [("name", .jstr "Paper"),
                          ("protocol", .jnum 765)]),
       ("players", .jobj [("max", .jnum 100), ("online", .jnum 7)])])⟩,
      false⟩ 2 rfl (by decide) _ _ rfl rfl
  constructor
  · exact h.1
  · exact h.2.2.2.1 "version" (by decide)

/-! ## C6 -/

/-- C6: with `override_version` enabled, a successful poll whose payload
parses as a JSON object with a `version` object caches that payload with
`version.name` and `version.protocol` set to the configured values,
every other top-level field and every other `version` field preserved,
and the unavailable flag cleared; a payload that fails to parse is cached
raw and unmodified. -/
theorem c6_override_version (cfg : SyncConfig)
    (hov : cfg.overrideVersion = true) :
    (∀ (resp : Raw) (fs vf : List (String × J)),
      resp.parsed = some (.jobj fs) →
      getJ fs "version" = some (.jobj vf) →
      (updateState cfg resp).upstreamUnavailable = false ∧
      (updateState cfg resp).cachedResponse.parsed =
        some (.jobj (setJ fs "version"
          (.jobj (setJ (setJ vf "name" (.jstr cfg.versionName))
            "protocol" (.jnum cfg.protocolVersion))))) ∧
      getJ (setJ fs "version"
          (.jobj (setJ (setJ vf "name" (.jstr cfg.versionName))
            "protocol" (.jnum cfg.protocolVersion)))) "version" =
        some (.jobj (setJ (setJ vf "name" (.jstr cfg.versionName))
          "protocol" (.jnum cfg.protocolVersion))) ∧
      getJ (setJ (setJ vf "name" (.jstr cfg.versionName))
          "protocol" (.jnum cfg.protocolVersion)) "protocol" =
        some (.jnum cfg.protocolVersion) ∧
      getJ (setJ (setJ vf "name" (.jstr cfg.versionName))
          "protocol" (.jnum cfg.protocolVersion)) "name" =
        some (.jstr cfg.versionName) ∧
      (∀ k, k ≠ "version" →
        getJ (setJ fs "version"
          (.jobj (setJ (setJ vf "name" (.jstr cfg.versionName))
            "protocol" (.jnum cfg.protocolVersion)))) k = getJ fs k) ∧
      (∀ k, k ≠ "name" → k ≠ "protocol" →
        getJ (setJ (setJ vf "name" (.jstr cfg.versionName))
          "protocol" (.jnum cfg.protocolVersion)) k = getJ vf k)) ∧
    (∀ resp : Raw, resp.parsed = none →
      updateState cfg resp = ⟨resp, false⟩) := by
  constructor
  · intro resp fs vf hp hv
    have hmod : overrideVersionInfo cfg resp =
        some (Marshal (.jobj (setJ fs "version"
          (.jobj (setJ (setJ vf "name" (.jstr cfg.versionName))
            "protocol" (.jnum cfg.protocolVersion)))))) := by
      unfold overrideVersionInfo
      rw [hp]
      dsimp only
      rw [hv]
    have hupd : updateState cfg resp =
        ⟨Marshal (.jobj (setJ fs "version"
          (.jobj (setJ (setJ vf "name" (.jstr cfg.versionName))
            "protocol" (.jnum cfg.protocolVersion))))), false⟩ := by
      unfold updateState
      rw [hov, hmod]
      simp
    refine ⟨by rw [hupd], by rw [hupd]; rfl,
      getJ_setJ_self fs "version" _, getJ_setJ_self _ "protocol" _, ?_,
      fun k hk => getJ_setJ_other fs "version" k _ hk,
      fun k hk1 hk2 => ?_⟩
    · rw [getJ_setJ_other _ "protocol" "name" _ (by decide)]
      exact getJ_setJ_self vf "name" _
    · rw [getJ_setJ_other _ "protocol" k _ hk2]
      exact getJ_setJ_other vf "name" k _ hk1
  · intro resp hp
    unfold updateState overrideVersionInfo
    rw [hov, hp]
    simp

/-- Witness for C6 on the S6 scenario: upstream returns
`{"version": {"name": "Paper", "protocol": 765}, "players": ...}` with
configured name `"X"` and protocol 42; the cache gets `version.name = "X"`,
`version.protocol = 42`, `players` untouched; and an unparseable payload
is cached raw. -/
theorem c6_override_version_witness :
    (updateState ⟨true, "X", 42, 100, 0, "m"⟩
      (Marshal (.jobj
        [("version", .jobj [("name", .jstr "Paper"),
                            ("protocol", .jnum 765)]),
         ("players", .jobj [("max", .jnum 100),
                            ("online", .jnum 7)])]))).upstreamUnavailable
        = false ∧
    getJ (setJ (setJ [("name", J.jstr "Paper"), ("protocol", J.jnum 765)]
        "name" (.jstr "X")) "protocol" (.jnum 42)) "protocol" =
      some (.jnum 42) ∧
    updateState ⟨true, "X", 42, 100, 0, "m"⟩ ⟨"not json", none⟩ =
      ⟨⟨"not json", none⟩, false⟩ := by
  have h := c6_override_version ⟨true, "X", 42, 100, 0, "m"⟩ rfl
  have hmain := h.1 (Marshal (.jobj
      [("version", .jobj [("name", .jstr "Paper"),
                          ("protocol", .jnum 765)]),
       ("players", .jobj [("max", .jnum 100), ("online", .jnum 7)])]))
    [("version", .jobj [("name", .jstr "Paper"),
                        ("protocol", .jnum 765)]),
     ("players", .jobj [("max", .jnum 100), ("online", .jnum 7)])]
    [("name", .jstr "Paper"), ("protocol", .jnum 765)] rfl rfl
  exact ⟨hmain.1, hmain.2.2.2.1, h.2 ⟨"not json", none⟩ rfl⟩

end FakeMC
